import Mathlib

/-!
Shallow embedding of the `pgcopy` repository core, for checking its
natural-language specification.

Embedded modules:
* `src/pgcopy/fdw_copy.py` — literal encoder (`_literal`), schema
  reconciliation, chunked insert building and the per-chunk apply loop of
  `copy_local_to_remote_via_dblink_values`, together with the foreign-server
  registration side effects (`_create_server_object`, `_drop_server_object`).
* `src/pgcopy/connection.py` — `create_pg_connection` (SSH fingerprint gate)
  and `_forward_tunnel` (per-client tunnel handler and accept loop).

External collaborators (database server, psycopg2 driver, paramiko, hashlib)
are modelled as explicit environment parameters; the control flow, string
building and effect ordering of the Python functions themselves are embedded
directly.  Side effects are modelled as explicit event traces.
-/

namespace Pgcopy

/-- A single-quote character (ASCII 39), used when building SQL literal text. -/
def sqc : Char := Char.ofNat 39

/-- The single-quote character as a one-character string. -/
def sq : String := String.singleton sqc

/-- Whether `pat` occurs as a contiguous run inside `s` (character lists).
An empty `pat` occurs everywhere, as in Python's `in`. -/
def containsSeq (s pat : List Char) : Bool :=
  match s with
  | [] => pat.isEmpty
  | _ :: rest => pat.isPrefixOf s || containsSeq rest pat

/-- Python `sub in s` for strings. -/
def hasSub (s sub : String) : Bool := containsSeq s.toList sub.toList

/-- One fuel-indexed step list for `str.replace`: replaces non-overlapping
occurrences of `pat` left to right, as Python does.  The fuel is always
instantiated with the length of the subject, which suffices because every
step consumes at least one character. -/
def replaceFuel (pat rep : List Char) : Nat → List Char → List Char
  | _, [] => []
  | 0, s => s
  | fuel + 1, a :: rest =>
      if !pat.isEmpty && pat.isPrefixOf (a :: rest) then
        rep ++ replaceFuel pat rep fuel (List.drop (pat.length - 1) rest)
      else a :: replaceFuel pat rep fuel rest

/-- Python `s.replace(pat, rep)` (for the non-empty patterns used here). -/
def sreplace (s pat rep : String) : String :=
  String.mk (replaceFuel pat.toList rep.toList s.toList.length s.toList)

/-- Python `", ".join(l)`-style joining. -/
def joinSep (sep : String) : List String → String
  | [] => ""
  | [x] => x
  | x :: xs => x ++ sep ++ joinSep sep xs

/-- ASCII lower-casing of one character (the declared-type texts this is
applied to are ASCII). -/
def lowerChar (c : Char) : Char :=
  if c.isUpper then Char.ofNat (c.toNat + 32) else c

/-- Python `s.lower()` restricted to ASCII subjects. -/
def lowerStr (s : String) : String := String.mk (s.toList.map lowerChar)

/-- Values a fetched source-row cell can take in this model: Python `None`,
`str`, `int`, `list` and `dict` values.  (`bytes` values — the binary decode
path of `_literal` — are outside the modelled value universe; no claim
concerns them.) -/
inductive PyVal where
  | none
  | str (s : String)
  | int (n : Int)
  | list (xs : List PyVal)
  | dict (kvs : List (String × PyVal))

/-- CPython `repr` of a `str`: wrapped in single quotes with backslashes and
single quotes escaped, except that a string containing a single quote but no
double quote is wrapped in double quotes.  (Escaping of non-printable
characters is not modelled; no claim depends on it.) -/
def pyReprStr (s : String) : String :=
  let body := sreplace s "\\" "\\\\"
  if s.toList.contains sqc && !(s.toList.contains '"') then "\"" ++ body ++ "\""
  else sq ++ (sreplace body sq ("\\" ++ sq)) ++ sq

mutual

/-- Python `repr` on the modelled value universe. -/
def pyRepr : PyVal → String
  | PyVal.none => "None"
  | PyVal.int n => toString n
  | PyVal.str s => pyReprStr s
  | PyVal.list xs => "[" ++ pyReprList xs ++ "]"
  | PyVal.dict kvs => "\x7b" ++ pyReprDict kvs ++ "\x7d"

/-- Comma-separated `repr`s of list elements. -/
def pyReprList : List PyVal → String
  | [] => ""
  | [x] => pyRepr x
  | x :: xs => pyRepr x ++ ", " ++ pyReprList xs

/-- Comma-separated `repr`s of dict items. -/
def pyReprDict : List (String × PyVal) → String
  | [] => ""
  | [(k, v)] => pyReprStr k ++ ": " ++ pyRepr v
  | (k, v) :: kvs => pyReprStr k ++ ": " ++ pyRepr v ++ ", " ++ pyReprDict kvs

end

/-- Python `str(x)`: the identity on `str` values, `repr` otherwise. -/
def pyStr : PyVal → String
  | PyVal.str s => s
  | v => pyRepr v

/-- JSON string escaping used by `json.dumps` (with `ensure_ascii=False`):
backslash, double quote and the common control characters.  (Other control
characters are not modelled; no claim depends on them.) -/
def jsonEscape (s : String) : String :=
  sreplace (sreplace (sreplace (sreplace (sreplace s "\\" "\\\\")
    "\"" "\\\"") "\n" "\\n") "\r" "\\r") "\t" "\\t"

mutual

/-- Python `json.dumps(v, ensure_ascii=False)` with the default separators
`(", ", ": ")`, on the modelled value universe. -/
def jsonDumps : PyVal → String
  | PyVal.none => "null"
  | PyVal.int n => toString n
  | PyVal.str s => "\"" ++ jsonEscape s ++ "\""
  | PyVal.list xs => "[" ++ jsonDumpsList xs ++ "]"
  | PyVal.dict kvs => "\x7b" ++ jsonDumpsDict kvs ++ "\x7d"

/-- JSON serialization of list elements, comma-separated. -/
def jsonDumpsList : List PyVal → String
  | [] => ""
  | [x] => jsonDumps x
  | x :: xs => jsonDumps x ++ ", " ++ jsonDumpsList xs

/-- JSON serialization of dict items, comma-separated. -/
def jsonDumpsDict : List (String × PyVal) → String
  | [] => ""
  | [(k, v)] => "\"" ++ jsonEscape k ++ "\": " ++ jsonDumps v
  | (k, v) :: kvs =>
      "\"" ++ jsonEscape k ++ "\": " ++ jsonDumps v ++ ", " ++ jsonDumpsDict kvs

end

/-- `_literal`, array branch condition: `isinstance(v, list) and rtype and
"[]" in rtype` — the value part is handled at the match site; this is the
`rtype and "[]" in rtype` part (`None` and the empty string are falsy). -/
def isArrayType : Option String → Bool
  | Option.none => false
  | Option.some t => hasSub t "[]"

/-- `_literal`, JSON branch condition on the declared type:
`rtype and rtype.lower() in ("json", "jsonb")`. -/
def isJsonType : Option String → Bool
  | Option.none => false
  | Option.some t => lowerStr t == "json" || lowerStr t == "jsonb"

/-- Per-element escaping inside `_literal`'s array branch:
`"NULL"` for `None`, otherwise `str(x).replace('"', '\\"').replace("'", "''")`
(each double quote gets a preceding backslash, each single quote is doubled;
note the source applies no escaping to backslash characters themselves). -/
def escapeArrayElem : PyVal → String
  | PyVal.none => "NULL"
  | x => sreplace (sreplace (pyStr x) "\"" ("\\" ++ "\"")) sq (sq ++ sq)

/-- The naive-quoting fallback of `_literal`'s default path:
`"'" + v.replace("'", "''") + "'"`.  (On a non-`str` value the Python
fallback would raise `AttributeError`; that point is unreachable in practice
because driver quoting does not fail on the scalar values that reach it, and
it is modelled here by quoting the value's `str()` text.) -/
def naiveQuote (v : PyVal) : String :=
  sq ++ sreplace (pyStr v) sq (sq ++ sq) ++ sq

/-- `_literal`'s default path: `adapt(v).getquoted().decode("utf-8")` when
driver quoting succeeds, else the naive-quoting fallback.  Driver quoting is
external (psycopg2) and is supplied as the function `adaptFn`; `Option.none`
models the `except` branch. -/
def quoteDefault (adaptFn : PyVal → Option String) (v : PyVal) : String :=
  match adaptFn v with
  | Option.some q => q
  | Option.none => naiveQuote v

/-- `_literal(v, rtype)` from `fdw_copy.py`, parameterized by the external
driver quoting function.  Branch order follows the source: `None`; list with
array-typed destination; `dict`/`list` or JSON-family declared type via
`json.dumps`; default driver quoting with naive fallback. -/
def _literal (adaptFn : PyVal → Option String) (v : PyVal)
    (rtype : Option String) : String :=
  match v with
  | PyVal.none => "NULL"
  | PyVal.list xs =>
      if isArrayType rtype then
        sq ++ "\x7b" ++ joinSep "," (xs.map escapeArrayElem) ++ "\x7d" ++ sq
      else quoteDefault adaptFn (PyVal.str (jsonDumps (PyVal.list xs)))
  | PyVal.dict kvs => quoteDefault adaptFn (PyVal.str (jsonDumps (PyVal.dict kvs)))
  | v =>
      if isJsonType rtype then quoteDefault adaptFn (PyVal.str (jsonDumps v))
      else quoteDefault adaptFn v

/-! ## Batch replication engine (`copy_local_to_remote_via_dblink_values`) -/

/-- Observable effects of one table-copy call, in execution order.  SQL
executed through the shared source connection is represented by one event per
statement category; `connCommit` is a `conn.commit()` on the psycopg2
connection, while `chunkBegin`/`chunkCommit`/`chunkRollback` are the explicit
`BEGIN;`/`COMMIT;`/`ROLLBACK;` statements around one chunk's `dblink_exec`.
Chunk events carry the 0-based chunk ordinal; log events carry the 1-based
chunk number used in the log text. -/
inductive Ev where
  | createExtension
  | dropServer (cascade : Bool)
  | createServer
  | createUserMapping
  | queryForeignServer
  | connCommit
  | describeRemote
  | describeLocal
  | fetchRows
  | logNothingToCopy
  | chunkBegin (i : Nat)
  | dblinkExec (i : Nat) (stmt : String)
  | chunkCommit (i : Nat)
  | chunkRollback (i : Nat)
  | logChunkInserted (i : Nat)
  | logChunkFailed (i : Nat)
  | logSummary (copied total : Nat)
deriving DecidableEq, Repr

/-- The two `ValueError`s `copy_local_to_remote_via_dblink_values` can raise:
"Remote table ... not found or has no columns." and
"No overlapping columns between local and remote tables.". -/
inductive CopyError where
  | remoteTableNotFound
  | noOverlap
deriving DecidableEq, Repr

/-- Environment of one table-copy call: the results of the external database
interactions and of driver quoting.
* `remoteCols` — the `(column_name, column_type)` rows returned by the
  dblink metadata query (destination ordinal order); empty means the remote
  table is absent or has no columns.
* `localCols` — the local column names from `information_schema.columns`.
* `tableRows` — the result set of the local `SELECT` restricted to the
  common columns, already in that column order (before any `LIMIT`).
* `chunkOk`   — whether chunk `n`'s `dblink_exec` succeeds on the remote.
* `adaptFn`   — psycopg2 `adapt(...).getquoted()` driver quoting
  (`Option.none` models the encoder raising). -/
structure CopyEnv where
  remoteCols : List (String × String)
  localCols : List String
  tableRows : List (List PyVal)
  chunkOk : Nat → Bool
  adaptFn : PyVal → Option String

/-- `common_cols = [c for c in remote_col_names if c in local_cols]`:
the overlap of remote and local column names, in remote (destination
ordinal) order. -/
def reconcileCols (remoteCols : List (String × String))
    (localCols : List String) : List String :=
  (remoteCols.map Prod.fst).filter (fun c => localCols.contains c)

/-- `remote_type_texts = {name: typ for name, typ in remote_cols}` — a dict
built from the remote metadata rows; a later duplicate key overwrites an
earlier one, so the last matching row wins.  (A missing key would be a
Python `KeyError`; the function is only applied to columns of the remote
table, so that case is unreachable and maps to `""`.) -/
def typeOf (remoteCols : List (String × String)) (name : String) : String :=
  match (remoteCols.filter (fun p => p.1 == name)).getLast? with
  | Option.some p => p.2
  | Option.none => ""

/-- The rows returned by `_get_local_rows`: the table's rows, truncated by
the optional `LIMIT`. -/
def _get_local_rows (env : CopyEnv) (rowLimit : Option Nat) : List (List PyVal) :=
  match rowLimit with
  | Option.some l => env.tableRows.take l
  | Option.none => env.tableRows

/-- psycopg2 `sql.Identifier`: wrap in double quotes, doubling any embedded
double quote. -/
def quoteIdent (s : String) : String :=
  "\"" ++ sreplace s "\"" "\"\"" ++ "\""

/-- One cell of a generated VALUES tuple, from `build_insert_values_chunk`:
`lit = _literal(cell, rtype)`, then `NULL::rtype` when `lit == "NULL"` and
`lit::rtype` otherwise. -/
def cellText (adaptFn : PyVal → Option String) (rtype : String)
    (cell : PyVal) : String :=
  let lit := _literal adaptFn cell (Option.some rtype)
  if lit == "NULL" then "NULL::" ++ rtype else lit ++ "::" ++ rtype

/-- `build_insert_values_chunk(chunk)`: one parenthesized tuple per row, the
cells in `common_cols` order (Python `zip` truncates at the shorter side),
tuples joined by `", "`. -/
def build_insert_values_chunk (adaptFn : PyVal → Option String)
    (commonCols : List String) (typeTexts : String → String)
    (chunk : List (List PyVal)) : String :=
  joinSep ", " (chunk.map (fun r =>
    "(" ++
      joinSep ", "
        ((commonCols.zip r).map (fun p => cellText adaptFn (typeTexts p.1) p.2)) ++
    ")"))

/-- The full `INSERT` statement text sent to `dblink_exec` for one chunk.
The 13 spaces between the column list and `VALUES` come from the Python
source: a trailing space, a backslash-newline continuation, and 12 spaces of
indentation on the continued line. -/
def insertStmt (adaptFn : PyVal → Option String)
    (remoteSchema remoteTable : String) (commonCols : List String)
    (typeTexts : String → String) (chunk : List (List PyVal)) : String :=
  "INSERT INTO " ++ quoteIdent remoteSchema ++ "." ++ quoteIdent remoteTable ++
    " (" ++ joinSep ", " (commonCols.map quoteIdent) ++
    ")             VALUES " ++
    build_insert_values_chunk adaptFn commonCols typeTexts chunk ++ ";"

/-- The successive slices `rows[i : i + batch_size]` for
`i in range(0, len(rows), batch_size)`.  A `batch_size` of zero would raise
`ValueError` inside `range` in Python and yields `[]` here; the claims about
the chunk loop assume `1 ≤ batchSize`. -/
def chunkList (bs : Nat) (l : List (List PyVal)) : List (List (List PyVal)) :=
  if h : bs = 0 ∨ l.isEmpty = true then [] else
    l.take bs :: chunkList bs (l.drop bs)
termination_by l.length
decreasing_by
  rw [not_or] at h
  have hbs : 0 < bs := Nat.pos_of_ne_zero h.1
  have hl : l ≠ [] := by
    intro hnil
    exact h.2 (by simp [hnil])
  simpa using Nat.sub_lt (List.length_pos.mpr hl) hbs

/-- The per-chunk apply loop (step 5 of the source): for each chunk, `BEGIN;`,
`SELECT dblink_exec(...)` with the generated statement, then `COMMIT;` and
the success log (printed only when there is more than one chunk's worth of
rows) on success — or, on any execution error, `ROLLBACK;` and the failure
log, continuing with the next chunk.  Returns `rows_copied` and the events,
starting from chunk ordinal `n`. -/
def applyChunks (ok : Nat → Bool) (stmtOf : List (List PyVal) → String)
    (totalRows batchSize : Nat) : Nat → List (List (List PyVal)) → Nat × List Ev
  | _, [] => (0, [])
  | n, c :: rest =>
      if ok n then
        (c.length + (applyChunks ok stmtOf totalRows batchSize (n + 1) rest).1,
          [Ev.chunkBegin n, Ev.dblinkExec n (stmtOf c), Ev.chunkCommit n] ++
            (if batchSize < totalRows then [Ev.logChunkInserted (n + 1)] else []) ++
            (applyChunks ok stmtOf totalRows batchSize (n + 1) rest).2)
      else
        ((applyChunks ok stmtOf totalRows batchSize (n + 1) rest).1,
          [Ev.chunkBegin n, Ev.dblinkExec n (stmtOf c), Ev.chunkRollback n,
            Ev.logChunkFailed (n + 1)] ++
            (applyChunks ok stmtOf totalRows batchSize (n + 1) rest).2)

/-- The effects of `_create_server_object` (which itself calls
`_drop_server_object` with `cascade=CASCADE=True` before creating): enable
the dblink extension, drop any existing foreign server (commit), create the
server and the user mapping, read back `pg_foreign_server`, commit. -/
def createServerObjectEvs : List Ev :=
  [Ev.createExtension, Ev.dropServer true, Ev.connCommit, Ev.createServer,
    Ev.createUserMapping, Ev.queryForeignServer, Ev.connCommit]

/-- `copy_local_to_remote_via_dblink_values`, as a function from the
environment to the returned value (or raised error) and the event trace.
The local/remote schema and table names only shape the generated SQL text;
the local names appear solely inside the fetch query and log strings and are
omitted from the event payloads. -/
def copy_local_to_remote_via_dblink_values (env : CopyEnv) (remoteSchema remoteTable : String)
    (batchSize : Nat) (rowLimit : Option Nat) :
    Except CopyError Bool × List Ev :=
  let evs1 := createServerObjectEvs ++ [Ev.describeRemote]
  if env.remoteCols.isEmpty then
    (Except.error CopyError.remoteTableNotFound, evs1)
  else
    let evs2 := evs1 ++ [Ev.describeLocal]
    if (reconcileCols env.remoteCols env.localCols).isEmpty then
      (Except.error CopyError.noOverlap, evs2)
    else
      let commonCols := reconcileCols env.remoteCols env.localCols
      let rows := _get_local_rows env rowLimit
      let evs3 := evs2 ++ [Ev.fetchRows]
      if rows.isEmpty then
        (Except.ok false, evs3 ++ [Ev.logNothingToCopy])
      else
        let stmtOf := fun c =>
          insertStmt env.adaptFn remoteSchema remoteTable commonCols
            (typeOf env.remoteCols) c
        let res := applyChunks env.chunkOk stmtOf rows.length batchSize 0
          (chunkList batchSize rows)
        (Except.ok (res.1 == rows.length),
          evs3 ++ res.2 ++ [Ev.connCommit, Ev.logSummary res.1 rows.length])

/-! ## Registration state machine (for the foreign-server side effect) -/

/-- Whether the named foreign server exists, in the committed database state
and in the view of the connection's current transaction. -/
structure RegState where
  committed : Bool
  current : Bool
deriving DecidableEq, Repr

/-- Transactional effect of one event on the foreign-server registration:
`DROP SERVER` and `CREATE SERVER` change the current view; a commit (either
`conn.commit()` or an explicit `COMMIT;`) makes the current view durable; an
explicit `ROLLBACK;` restores the committed state.  All other statements
leave the registration untouched. -/
def regStep (s : RegState) : Ev → RegState
  | Ev.dropServer _ => { s with current := false }
  | Ev.createServer => { s with current := true }
  | Ev.connCommit => { committed := s.current, current := s.current }
  | Ev.chunkCommit _ => { committed := s.current, current := s.current }
  | Ev.chunkRollback _ => { s with current := s.committed }
  | _ => s

/-- Events that leave a fully-registered state unchanged (everything except
a `DROP SERVER`). -/
def regNeutral : Ev → Bool
  | Ev.dropServer _ => false
  | _ => true

/-- Events that can occur inside the per-chunk apply loop. -/
def chunkPhaseEv : Ev → Bool
  | Ev.chunkBegin _ => true
  | Ev.dblinkExec _ _ => true
  | Ev.chunkCommit _ => true
  | Ev.chunkRollback _ => true
  | Ev.logChunkInserted _ => true
  | Ev.logChunkFailed _ => true
  | _ => false

/-- Whether an event is a per-chunk `COMMIT;`. -/
def isChunkCommitEv : Ev → Bool
  | Ev.chunkCommit _ => true
  | _ => false

/-- Whether an event is a per-chunk `ROLLBACK;`. -/
def isChunkRollbackEv : Ev → Bool
  | Ev.chunkRollback _ => true
  | _ => false

/-- Whether an event is a `dblink_exec` of a chunk's insert statement. -/
def isDblinkExecEv : Ev → Bool
  | Ev.dblinkExec _ _ => true
  | _ => false

/-- Total number of rows across a chunk partition. -/
def totalLen (chs : List (List (List PyVal))) : Nat :=
  (chs.map List.length).sum

/-- The chunk-loop part of one table-copy call (the `applyChunks` invocation
of `copy_local_to_remote_via_dblink_values`), named so the branch lemmas
stay readable. -/
def mainApply (env : CopyEnv) (rsch rtbl : String) (bs : Nat)
    (lim : Option Nat) : Nat × List Ev :=
  applyChunks env.chunkOk
    (fun c => insertStmt env.adaptFn rsch rtbl
      (reconcileCols env.remoteCols env.localCols) (typeOf env.remoteCols) c)
    (_get_local_rows env lim).length bs 0 (chunkList bs (_get_local_rows env lim))

/-- Concrete environment with one shared column, three source rows and every
chunk succeeding. -/
def envC2 : CopyEnv :=
  CopyEnv.mk [("id", "text")] ["id"]
    [[PyVal.str "x"], [PyVal.str "y"], [PyVal.str "z"]]
    (fun _ => true) (fun _ => Option.none)

/-- Concrete environment with one shared column and two source rows, where
chunk 0 fails and chunk 1 succeeds. -/
def envC3 : CopyEnv :=
  CopyEnv.mk [("id", "text")] ["id"] [[PyVal.str "x"], [PyVal.str "y"]]
    (fun n => n == 1) (fun _ => Option.none)

/-! ## SSH tunnel and connection (`connection.py`) -/

/-- The standard base64 alphabet. -/
def b64Chars : List Char :=
  "ABCDEFGHIJKLMNOPQRSTUVWXYZabcdefghijklmnopqrstuvwxyz0123456789+/".toList

/-- Character for one 6-bit group. -/
def b64Char (n : Nat) : Char := b64Chars.getD n 'A'

/-- `base64.b64encode(bytes).rstrip(b"=")`: standard base64 with the padding
characters stripped, over a byte list. -/
def b64NoPad : List Nat → String
  | [] => ""
  | [a] => String.mk [b64Char (a / 4), b64Char (a % 4 * 16)]
  | [a, b] =>
      String.mk [b64Char (a / 4), b64Char (a % 4 * 16 + b / 16),
        b64Char (b % 16 * 4)]
  | a :: b :: c :: rest =>
      String.mk [b64Char (a / 4), b64Char (a % 4 * 16 + b / 16),
        b64Char (b % 16 * 4 + c / 64), b64Char (c % 64)] ++ b64NoPad rest

/-- Environment for one `create_pg_connection` call.
* `serverKeyDigest` — `hashlib.sha256(server_key.asbytes()).digest()`, the
  32-byte SHA-256 digest of the bastion's host key (SHA-256 itself is an
  external primitive, so the digest is supplied, and the unpadded base64
  encoding applied to it is embedded).
* `expectedFingerprint` — the `expected_fingerprint` argument.
* `authOk` — whether `client.connect` authenticates (paramiko raises
  otherwise). -/
structure SshEnv where
  serverKeyDigest : List Nat
  expectedFingerprint : String
  authOk : Bool

/-- Observable effects of `create_pg_connection`, in order. -/
inductive SshEv where
  | loadSystemHostKeys
  | connectAttempt
  | getRemoteServerKey
  | closeClient
  | startForwardThread
  | pgConnect
deriving DecidableEq, Repr

/-- The errors `create_pg_connection` can raise: a paramiko authentication
failure from `client.connect`, or the `ValueError` "Unexpected SSH host key
fingerprint: ..." (carrying the computed fingerprint). -/
inductive SshError where
  | authFailure
  | fingerprintMismatch (computed : String)
deriving DecidableEq, Repr

/-- The fingerprint computed by `create_pg_connection`:
`base64.b64encode(hashlib.sha256(key).digest()).rstrip(b"=").decode("ascii")`. -/
def computedFingerprint (digest : List Nat) : String := b64NoPad digest

/-- `create_pg_connection` from `connection.py`: connect and authenticate to
the bastion, read the remote host key, compute its unpadded-base64 SHA-256
fingerprint, compare with `expected_fingerprint`; on mismatch close the SSH
client and raise; on match start the `_forward_tunnel` daemon thread and
open the psycopg2 connection through the tunnel. -/
def create_pg_connection (env : SshEnv) : Except SshError Unit × List SshEv :=
  if env.authOk = false then
    (Except.error SshError.authFailure, [SshEv.loadSystemHostKeys, SshEv.connectAttempt])
  else if computedFingerprint env.serverKeyDigest ≠ env.expectedFingerprint then
    (Except.error (SshError.fingerprintMismatch (computedFingerprint env.serverKeyDigest)),
      [SshEv.loadSystemHostKeys, SshEv.connectAttempt, SshEv.getRemoteServerKey,
        SshEv.closeClient])
  else
    (Except.ok (),
      [SshEv.loadSystemHostKeys, SshEv.connectAttempt, SshEv.getRemoteServerKey,
        SshEv.startForwardThread, SshEv.pgConnect])

/-- One accepted client of `_forward_tunnel`'s accept loop.
* `chanOk` — whether `transport.open_channel("direct-tcpip", ...)` returned
  a channel (`false` models it returning `None`).
* `clientChunks` / `chanChunks` — the successive non-empty byte chunks the
  client socket / SSH channel deliver before end-of-stream. -/
structure TunnelClient where
  chanOk : Bool
  clientChunks : List (List Nat)
  chanChunks : List (List Nat)

/-- Per-client events of the tunnel handler. -/
inductive TEv where
  | openChannel
  | printNoTunnel
  | sendToChan (data : List Nat)
  | sendToClient (data : List Nat)
  | closeChan
  | closeClient
deriving DecidableEq, Repr

/-- The relay loop of `handler`: each iteration reads from the client socket
(a zero-length read breaks the loop), forwards to the channel, then reads
from the channel (a zero-length read breaks), forwarding to the client.
`select` is modelled by the deterministic schedule in which both ends are
always ready, which is exactly the order the loop body services them in. -/
def relayLoop : List (List Nat) → List (List Nat) → List TEv
  | [], _ => []
  | c :: cs, ds =>
      if c.isEmpty then []
      else TEv.sendToChan c ::
        match ds with
        | [] => []
        | d :: ds' =>
            if d.isEmpty then []
            else TEv.sendToClient d :: relayLoop cs ds'

/-- `handler(client_sock)` inside `_forward_tunnel`: open the channel; when
`open_channel` returned `None`, print the error and return — the client
socket is left as-is; otherwise relay until either side reaches
end-of-stream, then close the channel and the client socket. -/
def handler (cl : TunnelClient) : List TEv :=
  if cl.chanOk = false then [TEv.openChannel, TEv.printNoTunnel]
  else
    [TEv.openChannel] ++ relayLoop cl.clientChunks cl.chanChunks ++
      [TEv.closeChan, TEv.closeClient]

/-- `_forward_tunnel`'s accept loop: every accepted client is handed to its
own `handler` thread; one handler's outcome does not influence the loop or
any other client, so the loop's observable behaviour is one event list per
accepted client. -/
def _forward_tunnel (clients : List TunnelClient) : List (List TEv) :=
  clients.map handler

/-! ## Helper lemmas -/

theorem isEmpty_eq_false_of_ne {α : Type} {l : List α} (h : l ≠ []) :
    l.isEmpty = false := by
  cases l with
  | nil => exact absurd rfl h
  | cons a t => rfl

theorem ne_nil_of_isEmpty_eq_false {α : Type} {l : List α}
    (h : l.isEmpty = false) : l ≠ [] := by
  intro hnil
  subst hnil
  simp at h

theorem chunkList_nil (bs : Nat) : chunkList bs [] = [] := by
  unfold chunkList
  simp

theorem chunkList_cons (bs : Nat) (l : List (List PyVal)) (h1 : bs ≠ 0)
    (h2 : l ≠ []) :
    chunkList bs l = l.take bs :: chunkList bs (l.drop bs) := by
  conv_lhs => rw [chunkList]
  rw [dif_neg]
  rw [not_or]
  exact ⟨h1, by simp [isEmpty_eq_false_of_ne h2]⟩

theorem chunkList_flatten (bs : Nat) (hbs : 1 ≤ bs) (l : List (List PyVal)) :
    (chunkList bs l).flatten = l := by
  by_cases hl : l = []
  · subst hl
    rw [chunkList_nil]
    rfl
  · rw [chunkList_cons bs l (by omega) hl, List.flatten_cons,
      chunkList_flatten bs hbs (l.drop bs), List.take_append_drop]
termination_by l.length
decreasing_by
  have hbs0 : 0 < bs := by omega
  simpa using Nat.sub_lt (List.length_pos.mpr hl) hbs0

theorem chunkList_ne_nil (bs : Nat) (hbs : 1 ≤ bs) (l : List (List PyVal)) :
    ∀ c ∈ chunkList bs l, c ≠ [] := by
  by_cases hl : l = []
  · subst hl
    rw [chunkList_nil]
    intro c hc
    exact absurd hc (List.not_mem_nil c)
  · rw [chunkList_cons bs l (by omega) hl]
    intro c hc
    rcases List.mem_cons.mp hc with h | h
    · subst h
      have hlen : (l.take bs).length = min bs l.length := List.length_take bs l
      have hpos : 0 < (l.take bs).length := by
        rw [hlen]
        have := List.length_pos.mpr hl
        omega
      exact List.length_pos.mp hpos
    · exact chunkList_ne_nil bs hbs (l.drop bs) c h
termination_by l.length
decreasing_by
  have hbs0 : 0 < bs := by omega
  simpa using Nat.sub_lt (List.length_pos.mpr hl) hbs0

theorem totalLen_chunkList (bs : Nat) (hbs : 1 ≤ bs) (l : List (List PyVal)) :
    totalLen (chunkList bs l) = l.length := by
  rw [totalLen, ← List.length_flatten, chunkList_flatten bs hbs]

theorem applyChunks_fst_le (ok : Nat → Bool) (stmtOf : List (List PyVal) → String)
    (tR bS : Nat) (chs : List (List (List PyVal))) :
    ∀ n, (applyChunks ok stmtOf tR bS n chs).1 ≤ totalLen chs := by
  induction chs with
  | nil => intro n; simp [applyChunks, totalLen]
  | cons c rest ih =>
      intro n
      simp only [applyChunks, totalLen, List.map_cons, List.sum_cons]
      have := ih (n + 1)
      rw [totalLen] at this
      by_cases h : ok n = true
      · rw [if_pos h]
        omega
      · rw [if_neg h]
        omega

theorem applyChunks_fst_eq_iff (ok : Nat → Bool)
    (stmtOf : List (List PyVal) → String) (tR bS : Nat)
    (chs : List (List (List PyVal))) (hne : ∀ c ∈ chs, c ≠ []) :
    ∀ n, ((applyChunks ok stmtOf tR bS n chs).1 = totalLen chs ↔
      ∀ k, k < chs.length → ok (n + k) = true) := by
  induction chs with
  | nil =>
      intro n
      simp [applyChunks, totalLen]
  | cons c rest ih =>
      intro n
      have hrest := ih (fun x hx => hne x (List.mem_cons_of_mem c hx)) (n + 1)
      have hcpos : 0 < c.length :=
        List.length_pos.mpr (hne c (List.mem_cons_self c rest))
      have hle := applyChunks_fst_le ok stmtOf tR bS rest (n + 1)
      simp only [applyChunks, totalLen, List.map_cons, List.sum_cons] at *
      by_cases h : ok n = true
      · rw [if_pos h]
        constructor
        · intro heq k hk
          cases k with
          | zero => simpa using h
          | succ k =>
              have : (applyChunks ok stmtOf tR bS (n + 1) rest).1 =
                  (rest.map List.length).sum := by omega
              have := (hrest.mp this) k (by simpa using hk)
              simpa [Nat.add_assoc, Nat.add_comm 1 k] using this
        · intro hall
          have : ∀ k, k < rest.length → ok (n + 1 + k) = true := by
            intro k hk
            have := hall (k + 1) (by simpa using Nat.succ_lt_succ hk)
            simpa [Nat.add_assoc, Nat.add_comm 1 k] using this
          have := hrest.mpr this
          omega
      · rw [if_neg h]
        constructor
        · intro heq
          omega
        · intro hall
          have := hall 0 (by simp)
          simp at this
          exact absurd this h

theorem applyChunks_events_chunkPhase (ok : Nat → Bool)
    (stmtOf : List (List PyVal) → String) (tR bS : Nat)
    (chs : List (List (List PyVal))) :
    ∀ n e, e ∈ (applyChunks ok stmtOf tR bS n chs).2 → chunkPhaseEv e = true := by
  induction chs with
  | nil => intro n e he; simp [applyChunks] at he
  | cons c rest ih =>
      intro n e he
      simp only [applyChunks] at he
      by_cases h : ok n = true
      · rw [if_pos h] at he
        simp only [List.mem_append, List.mem_cons, List.mem_singleton] at he
        rcases he with ((h1 | h1 | h1 | h1) | h1) | h1
        · subst h1; rfl
        · subst h1; rfl
        · subst h1; rfl
        · simp at h1
        · by_cases hlog : bS < tR
          · rw [if_pos hlog] at h1
            simp at h1
            subst h1; rfl
          · rw [if_neg hlog] at h1
            simp at h1
        · exact ih (n + 1) e h1
      · rw [if_neg h] at he
        simp only [List.mem_append, List.mem_cons, List.mem_singleton] at he
        rcases he with (h1 | h1 | h1 | h1 | h1) | h1
        · subst h1; rfl
        · subst h1; rfl
        · subst h1; rfl
        · subst h1; rfl
        · simp at h1
        · exact ih (n + 1) e h1

theorem chunkPhase_regNeutral (e : Ev) (h : chunkPhaseEv e = true) :
    regNeutral e = true := by
  cases e <;> first | rfl | exact absurd h (by simp [chunkPhaseEv])

theorem regStep_fixed (e : Ev) (h : regNeutral e = true) :
    regStep ⟨true, true⟩ e = ⟨true, true⟩ := by
  cases e <;> first | rfl | exact absurd h (by simp [regNeutral])

theorem foldl_regStep_fixed (l : List Ev) (h : ∀ e ∈ l, regNeutral e = true) :
    l.foldl regStep ⟨true, true⟩ = ⟨true, true⟩ := by
  induction l with
  | nil => rfl
  | cons e t ih =>
      rw [List.foldl_cons, regStep_fixed e (h e (List.mem_cons_self e t))]
      exact ih (fun x hx => h x (List.mem_cons_of_mem e hx))

theorem copy_eq_remoteNotFound (env : CopyEnv) (rsch rtbl : String) (bs : Nat)
    (lim : Option Nat) (h : env.remoteCols.isEmpty = true) :
    copy_local_to_remote_via_dblink_values env rsch rtbl bs lim =
      (Except.error CopyError.remoteTableNotFound,
        createServerObjectEvs ++ [Ev.describeRemote]) := by
  simp [copy_local_to_remote_via_dblink_values, h]

theorem copy_eq_noOverlap (env : CopyEnv) (rsch rtbl : String) (bs : Nat)
    (lim : Option Nat) (h1 : env.remoteCols.isEmpty = false)
    (h2 : (reconcileCols env.remoteCols env.localCols).isEmpty = true) :
    copy_local_to_remote_via_dblink_values env rsch rtbl bs lim =
      (Except.error CopyError.noOverlap,
        createServerObjectEvs ++ [Ev.describeRemote, Ev.describeLocal]) := by
  simp [copy_local_to_remote_via_dblink_values, h1, h2]

theorem copy_eq_emptyRows (env : CopyEnv) (rsch rtbl : String) (bs : Nat)
    (lim : Option Nat) (h1 : env.remoteCols.isEmpty = false)
    (h2 : (reconcileCols env.remoteCols env.localCols).isEmpty = false)
    (h3 : (_get_local_rows env lim).isEmpty = true) :
    copy_local_to_remote_via_dblink_values env rsch rtbl bs lim =
      (Except.ok false,
        createServerObjectEvs ++ [Ev.describeRemote, Ev.describeLocal,
          Ev.fetchRows, Ev.logNothingToCopy]) := by
  simp [copy_local_to_remote_via_dblink_values, h1, h2, h3]

theorem copy_eq_main (env : CopyEnv) (rsch rtbl : String) (bs : Nat)
    (lim : Option Nat) (h1 : env.remoteCols.isEmpty = false)
    (h2 : (reconcileCols env.remoteCols env.localCols).isEmpty = false)
    (h3 : (_get_local_rows env lim).isEmpty = false) :
    copy_local_to_remote_via_dblink_values env rsch rtbl bs lim =
      (Except.ok ((mainApply env rsch rtbl bs lim).1 == (_get_local_rows env lim).length),
        createServerObjectEvs ++ [Ev.describeRemote, Ev.describeLocal, Ev.fetchRows] ++
          (mainApply env rsch rtbl bs lim).2 ++
          [Ev.connCommit,
            Ev.logSummary (mainApply env rsch rtbl bs lim).1
              (_get_local_rows env lim).length]) := by
  simp [copy_local_to_remote_via_dblink_values, mainApply, h1, h2, h3]

/-- The cast branch of `build_insert_values_chunk` collapses: whether or not
the literal is `NULL`, the emitted cell text is the literal followed by
`::declaredType`. -/
theorem cellText_eq_cast (adaptFn : PyVal → Option String) (rt : String)
    (cell : PyVal) :
    cellText adaptFn rt cell =
      _literal adaptFn cell (Option.some rt) ++ "::" ++ rt := by
  by_cases h : _literal adaptFn cell (Option.some rt) = "NULL"
  · simp [cellText, h]
  · simp [cellText, h]

/-! ## The claims -/

/-- Claim C1: in `create_pg_connection`, whenever authentication succeeded,
the call succeeds exactly when the computed fingerprint (unpadded base64 of
the SHA-256 digest of the bastion's host key) equals `expected_fingerprint`;
on any mismatch the SSH client is closed, a fingerprint error is raised and
the forwarding thread is never started, and on a match the check passes and
forwarding starts — there is no trust-on-first-use or silent-accept path. -/
theorem claim_C1 (env : SshEnv) (h : env.authOk = true) :
    ((create_pg_connection env).1 = Except.ok () ↔
        computedFingerprint env.serverKeyDigest = env.expectedFingerprint)
  ∧ (computedFingerprint env.serverKeyDigest ≠ env.expectedFingerprint →
        (create_pg_connection env).1 =
          Except.error
            (SshError.fingerprintMismatch (computedFingerprint env.serverKeyDigest))
      ∧ SshEv.closeClient ∈ (create_pg_connection env).2
      ∧ SshEv.startForwardThread ∉ (create_pg_connection env).2)
  ∧ (computedFingerprint env.serverKeyDigest = env.expectedFingerprint →
        (create_pg_connection env).1 = Except.ok ()
      ∧ SshEv.startForwardThread ∈ (create_pg_connection env).2
      ∧ SshEv.closeClient ∉ (create_pg_connection env).2) := by
  by_cases hfp : computedFingerprint env.serverKeyDigest = env.expectedFingerprint
  · simp [create_pg_connection, h, hfp]
  · simp [create_pg_connection, h, hfp]

/-- Witness for C1 at a concrete environment: digest `[171, 205]` encodes to
the fingerprint `"q80"`, which differs from the expected `"nope"`, so the
call fails with the fingerprint error. -/
theorem claim_C1_witness :
    (SshEnv.mk [171, 205] "nope" true).authOk = true
  ∧ (create_pg_connection (SshEnv.mk [171, 205] "nope" true)).1 =
      Except.error (SshError.fingerprintMismatch "q80") := by
  refine ⟨rfl, ?_⟩
  have h := (claim_C1 (SshEnv.mk [171, 205] "nope" true) rfl).2.1 (by decide)
  exact h.1

/-- Claim C4: reconciliation returns exactly the remote (destination ordinal)
column order restricted to the names also present locally — a sublist of the
remote name order containing precisely the overlap — and on the spec's
example `remote=[("id","integer"),("name","text")]`,
`local={"name","id","ignored"}` it yields `["id","name"]`, not
`["name","id"]`. -/
theorem claim_C4 (remoteCols : List (String × String)) (localCols : List String) :
    List.Sublist (reconcileCols remoteCols localCols) (remoteCols.map Prod.fst)
  ∧ (∀ c, c ∈ reconcileCols remoteCols localCols ↔
      c ∈ remoteCols.map Prod.fst ∧ localCols.contains c = true)
  ∧ reconcileCols [("id", "integer"), ("name", "text")] ["name", "id", "ignored"]
      = ["id", "name"]
  ∧ reconcileCols [("id", "integer"), ("name", "text")] ["name", "id", "ignored"]
      ≠ ["name", "id"] := by
  refine ⟨List.filter_sublist _, ?_, by decide, by decide⟩
  intro c
  simp [reconcileCols, List.mem_filter]

/-- Claim C7: every value cell emitted by `build_insert_values_chunk` is the
literal followed by an explicit `::declaredType` cast — the `NULL` branch
collapses into the same shape — and a `None` cell's literal is the unquoted
text `NULL` for every declared type, so it is emitted as `NULL::declaredType`. -/
theorem claim_C7 (adaptFn : PyVal → Option String) (cols : List String)
    (tt : String → String) (chunk : List (List PyVal)) (rt : String) :
    build_insert_values_chunk adaptFn cols tt chunk =
      joinSep ", " (chunk.map (fun r =>
        "(" ++
          joinSep ", " ((cols.zip r).map
            (fun p => _literal adaptFn p.2 (Option.some (tt p.1)) ++ "::" ++ tt p.1)) ++
        ")"))
  ∧ _literal adaptFn PyVal.none (Option.some rt) = "NULL"
  ∧ cellText adaptFn rt PyVal.none = "NULL::" ++ rt := by
  refine ⟨?_, rfl, rfl⟩
  simp only [build_insert_values_chunk, cellText_eq_cast]

/-- Claim C5: with a non-empty remote column list but an empty overlap, the
table copy raises the no-overlap error, and the trace shows the failure
happens before any source-row fetch (no fetch event, no chunk execution). -/
theorem claim_C5 (env : CopyEnv) (rsch rtbl : String) (bs : Nat)
    (lim : Option Nat) (h1 : env.remoteCols.isEmpty = false)
    (h2 : (reconcileCols env.remoteCols env.localCols).isEmpty = true) :
    (copy_local_to_remote_via_dblink_values env rsch rtbl bs lim).1 =
        Except.error CopyError.noOverlap
  ∧ Ev.fetchRows ∉ (copy_local_to_remote_via_dblink_values env rsch rtbl bs lim).2
  ∧ (∀ n s, Ev.dblinkExec n s ∉
      (copy_local_to_remote_via_dblink_values env rsch rtbl bs lim).2) := by
  rw [copy_eq_noOverlap env rsch rtbl bs lim h1 h2]
  refine ⟨rfl, ?_, ?_⟩ <;> simp [createServerObjectEvs]

/-- Witness for C5 on the spec's example: remote `[("only_remote","text")]`
and local `{"only_local"}` have empty overlap, and the call fails with the
no-overlap error. -/
theorem claim_C5_witness :
    (CopyEnv.mk [("only_remote", "text")] ["only_local"] []
        (fun _ => true) (fun _ => Option.none)).remoteCols.isEmpty = false
  ∧ (reconcileCols
        (CopyEnv.mk [("only_remote", "text")] ["only_local"] []
          (fun _ => true) (fun _ => Option.none)).remoteCols
        (CopyEnv.mk [("only_remote", "text")] ["only_local"] []
          (fun _ => true) (fun _ => Option.none)).localCols).isEmpty = true
  ∧ (copy_local_to_remote_via_dblink_values
        (CopyEnv.mk [("only_remote", "text")] ["only_local"] []
          (fun _ => true) (fun _ => Option.none)) "s" "t" 1 Option.none).1 =
      Except.error CopyError.noOverlap := by
  refine ⟨rfl, by decide, ?_⟩
  exact (claim_C5
    (CopyEnv.mk [("only_remote", "text")] ["only_local"] []
      (fun _ => true) (fun _ => Option.none)) "s" "t" 1 Option.none rfl
    (by decide)).1

/-- Counterexample for C6 as stated: the claim says each non-null array
element is "escaped for embedded quote and backslash characters", but a
backslash character passes through unescaped — encoding the one-element
array `["a\b"]` (one backslash) for `text[]` embeds `a\b` verbatim: the
output is exactly `'{a\b}'` and contains exactly one backslash, so no escape
was added for it. -/
theorem claim_C6_counterexample :
    _literal (fun _ => Option.none) (PyVal.list [PyVal.str "a\\b"])
        (Option.some "text[]")
      = sq ++ "\x7ba\\b\x7d" ++ sq
  ∧ ((_literal (fun _ => Option.none) (PyVal.list [PyVal.str "a\\b"])
        (Option.some "text[]")).toList.count '\\') = 1 := by
  constructor <;> decide

/-- Claim C6 (amended): for a sequence value with an array-typed destination
(`declaredType` containing `[]`), the encoder emits the elements joined by
commas inside braces wrapped in single quotes, `None` elements as unquoted
`NULL` inside the braces, and each non-null element escaped for embedded
quote characters — a double quote gets a preceding backslash and a single
quote is doubled, while backslash characters themselves pass through
unescaped — and `Encode(["A",None,"B"], "text[]")` contains the substring
`{A,NULL,B}`. -/
theorem claim_C6 (adaptFn : PyVal → Option String) (xs : List PyVal)
    (rt : String) (h : hasSub rt "[]" = true) :
    _literal adaptFn (PyVal.list xs) (Option.some rt)
      = sq ++ "\x7b" ++ joinSep "," (xs.map escapeArrayElem) ++ "\x7d" ++ sq
  ∧ escapeArrayElem PyVal.none = "NULL"
  ∧ (∀ s, escapeArrayElem (PyVal.str s)
        = sreplace (sreplace s "\"" ("\\" ++ "\"")) sq (sq ++ sq))
  ∧ hasSub
      (_literal adaptFn (PyVal.list [PyVal.str "A", PyVal.none, PyVal.str "B"])
        (Option.some "text[]")) "\x7bA,NULL,B\x7d" = true := by
  refine ⟨?_, rfl, fun s => rfl, ?_⟩
  · simp [_literal, isArrayType, h]
  · have harr : isArrayType (Option.some "text[]") = true := by decide
    have he : _literal adaptFn
        (PyVal.list [PyVal.str "A", PyVal.none, PyVal.str "B"])
        (Option.some "text[]")
        = sq ++ "\x7b" ++
            joinSep ","
              ([PyVal.str "A", PyVal.none, PyVal.str "B"].map escapeArrayElem) ++
            "\x7d" ++ sq := by
      simp [_literal, harr]
    rw [he]
    decide

/-- Witness for C6 (amended) at the spec's example input. -/
theorem claim_C6_witness :
    hasSub "text[]" "[]" = true
  ∧ _literal (fun _ => Option.none)
      (PyVal.list [PyVal.str "A", PyVal.none, PyVal.str "B"])
      (Option.some "text[]")
    = sq ++ "\x7b" ++
        joinSep "," ([PyVal.str "A", PyVal.none, PyVal.str "B"].map escapeArrayElem) ++
        "\x7d" ++ sq := by
  refine ⟨by decide, ?_⟩
  exact (claim_C6 (fun _ => Option.none)
    [PyVal.str "A", PyVal.none, PyVal.str "B"] "text[]" (by decide)).1

/-- Counterexample for C9 as stated: when `open_channel` yields no channel,
`handler` prints the error and returns without closing the client socket —
no `closeClient` event occurs for that client — while the accept loop still
serves the next client in full. -/
theorem claim_C9_counterexample :
    handler (TunnelClient.mk false [] []) = [TEv.openChannel, TEv.printNoTunnel]
  ∧ TEv.closeClient ∉ handler (TunnelClient.mk false [] [])
  ∧ _forward_tunnel
      [TunnelClient.mk false [] [], TunnelClient.mk true [[7]] []]
      = [[TEv.openChannel, TEv.printNoTunnel],
         [TEv.openChannel, TEv.sendToChan [7], TEv.closeChan, TEv.closeClient]] := by
  refine ⟨rfl, by decide, rfl⟩

/-- Claim C9 (amended): whenever channel establishment fails for an accepted
client, that client's handler logs the failure and returns without starting
a relay — the client socket is abandoned, not explicitly closed — and the
accept loop continues serving every other client unaffected (each client's
events are exactly its own handler's events). -/
theorem claim_C9 (clients : List TunnelClient) (i : Nat)
    (h : i < clients.length) (hfail : (clients.get ⟨i, h⟩).chanOk = false) :
    handler (clients.get ⟨i, h⟩) = [TEv.openChannel, TEv.printNoTunnel]
  ∧ TEv.closeClient ∉ handler (clients.get ⟨i, h⟩)
  ∧ (_forward_tunnel clients).length = clients.length
  ∧ (∀ j : Nat, (_forward_tunnel clients)[j]? = (clients[j]?).map handler) := by
  simp only [List.get_eq_getElem] at hfail
  refine ⟨?_, ?_, by simp [_forward_tunnel], fun j => by simp [_forward_tunnel]⟩
  · simp [handler, hfail]
  · simp [handler, hfail]

/-- Witness for C9 (amended) at a one-client list whose channel fails. -/
theorem claim_C9_witness :
    ([TunnelClient.mk false [] []].get ⟨0, Nat.zero_lt_one⟩).chanOk = false
  ∧ handler ([TunnelClient.mk false [] []].get ⟨0, Nat.zero_lt_one⟩)
      = [TEv.openChannel, TEv.printNoTunnel] := by
  refine ⟨rfl, ?_⟩
  exact (claim_C9 [TunnelClient.mk false [] []] 0 Nat.zero_lt_one rfl).1

/-- Claim C8: past reconciliation, a zero-row fetch makes the call return
`false` without raising, with the distinct "nothing to copy" log event and
no chunk ever applied (no `dblink_exec`, no chunk transaction); conversely
when at least one row is fetched that log event never occurs, so the signal
distinguishes the empty outcome from a failed-chunk `false`. -/
theorem claim_C8 (env : CopyEnv) (rsch rtbl : String) (bs : Nat)
    (lim : Option Nat) (h1 : env.remoteCols.isEmpty = false)
    (h2 : (reconcileCols env.remoteCols env.localCols).isEmpty = false) :
    ((_get_local_rows env lim).isEmpty = true →
        (copy_local_to_remote_via_dblink_values env rsch rtbl bs lim).1 =
            Except.ok false
      ∧ Ev.logNothingToCopy ∈
          (copy_local_to_remote_via_dblink_values env rsch rtbl bs lim).2
      ∧ (∀ n s, Ev.dblinkExec n s ∉
          (copy_local_to_remote_via_dblink_values env rsch rtbl bs lim).2)
      ∧ (∀ n, Ev.chunkBegin n ∉
          (copy_local_to_remote_via_dblink_values env rsch rtbl bs lim).2)
      ∧ (∀ n, Ev.chunkRollback n ∉
          (copy_local_to_remote_via_dblink_values env rsch rtbl bs lim).2))
  ∧ ((_get_local_rows env lim).isEmpty = false →
        Ev.logNothingToCopy ∉
          (copy_local_to_remote_via_dblink_values env rsch rtbl bs lim).2) := by
  constructor
  · intro h3
    rw [copy_eq_emptyRows env rsch rtbl bs lim h1 h2 h3]
    refine ⟨rfl, ?_, ?_, ?_, ?_⟩ <;> simp [createServerObjectEvs]
  · intro h3
    rw [copy_eq_main env rsch rtbl bs lim h1 h2 h3]
    intro hmem
    simp [createServerObjectEvs] at hmem
    simp only [mainApply] at hmem
    exact absurd (applyChunks_events_chunkPhase env.chunkOk _ _ _ _ _ _ hmem)
      (by decide)

/-- Witness for C8 (the empty-rows direction) at a concrete environment with
an overlapping column and an empty source table. -/
theorem claim_C8_witness :
    (CopyEnv.mk [("id", "text")] ["id"] [] (fun _ => true)
        (fun _ => Option.none)).remoteCols.isEmpty = false
  ∧ (reconcileCols
        (CopyEnv.mk [("id", "text")] ["id"] [] (fun _ => true)
          (fun _ => Option.none)).remoteCols
        (CopyEnv.mk [("id", "text")] ["id"] [] (fun _ => true)
          (fun _ => Option.none)).localCols).isEmpty = false
  ∧ (_get_local_rows
        (CopyEnv.mk [("id", "text")] ["id"] [] (fun _ => true)
          (fun _ => Option.none)) Option.none).isEmpty = true
  ∧ (copy_local_to_remote_via_dblink_values
        (CopyEnv.mk [("id", "text")] ["id"] [] (fun _ => true)
          (fun _ => Option.none)) "s" "t" 5 Option.none).1 = Except.ok false
  ∧ Ev.logNothingToCopy ∈
      (copy_local_to_remote_via_dblink_values
        (CopyEnv.mk [("id", "text")] ["id"] [] (fun _ => true)
          (fun _ => Option.none)) "s" "t" 5 Option.none).2 := by
  refine ⟨rfl, by decide, rfl, ?_, ?_⟩
  · exact ((claim_C8 (CopyEnv.mk [("id", "text")] ["id"] [] (fun _ => true)
      (fun _ => Option.none)) "s" "t" 5 Option.none rfl (by decide)).1 rfl).1
  · exact ((claim_C8 (CopyEnv.mk [("id", "text")] ["id"] [] (fun _ => true)
      (fun _ => Option.none)) "s" "t" 5 Option.none rfl (by decide)).1 rfl).2.1

/-- Claim C10: every call first re-creates the foreign-server registration —
the trace always begins with the drop-with-CASCADE, server and user-mapping
creation and a commit, all before the remote schema is described — and from
any initial registration state the registration is present and committed at
the end of the trace, whatever the call's outcome: later per-chunk rollbacks
never undo it. -/
theorem claim_C10 (env : CopyEnv) (rsch rtbl : String) (bs : Nat)
    (lim : Option Nat) (init : RegState) :
    (∃ rest, (copy_local_to_remote_via_dblink_values env rsch rtbl bs lim).2 =
        createServerObjectEvs ++ Ev.describeRemote :: rest)
  ∧ ((copy_local_to_remote_via_dblink_values env rsch rtbl bs lim).2.foldl
        regStep init) = RegState.mk true true := by
  cases h1 : env.remoteCols.isEmpty with
  | true =>
      rw [copy_eq_remoteNotFound env rsch rtbl bs lim h1]
      exact ⟨⟨[], by simp⟩, rfl⟩
  | false =>
      cases h2 : (reconcileCols env.remoteCols env.localCols).isEmpty with
      | true =>
          rw [copy_eq_noOverlap env rsch rtbl bs lim h1 h2]
          exact ⟨⟨[Ev.describeLocal], by simp⟩, rfl⟩
      | false =>
          cases h3 : (_get_local_rows env lim).isEmpty with
          | true =>
              rw [copy_eq_emptyRows env rsch rtbl bs lim h1 h2 h3]
              exact ⟨⟨[Ev.describeLocal, Ev.fetchRows, Ev.logNothingToCopy],
                by simp⟩, rfl⟩
          | false =>
              rw [copy_eq_main env rsch rtbl bs lim h1 h2 h3]
              have hshape :
                  createServerObjectEvs ++
                      [Ev.describeRemote, Ev.describeLocal, Ev.fetchRows] ++
                      (mainApply env rsch rtbl bs lim).2 ++
                      [Ev.connCommit,
                        Ev.logSummary (mainApply env rsch rtbl bs lim).1
                          (_get_local_rows env lim).length] =
                    createServerObjectEvs ++ Ev.describeRemote ::
                      ([Ev.describeLocal, Ev.fetchRows] ++
                        (mainApply env rsch rtbl bs lim).2 ++
                        [Ev.connCommit,
                          Ev.logSummary (mainApply env rsch rtbl bs lim).1
                            (_get_local_rows env lim).length]) := by
                simp
              refine ⟨⟨_, hshape⟩, ?_⟩
              rw [hshape]
              have hpre : ∀ (s : RegState) (l : List Ev),
                  (createServerObjectEvs ++ Ev.describeRemote :: l).foldl
                      regStep s = l.foldl regStep ⟨true, true⟩ :=
                fun s l => rfl
              rw [hpre]
              apply foldl_regStep_fixed
              intro e he
              cases e <;> try rfl
              all_goals
                exfalso
                simp at he
                simp only [mainApply] at he
                have hph := applyChunks_events_chunkPhase env.chunkOk _ _ _ _ _ _ he
                simp [chunkPhaseEv] at hph

/-- Claim C2: once the call has fetched at least one source row, it returns
`true` exactly when every chunk of the partition was applied successfully
(every chunk's `dblink_exec` committed); any failed chunk makes it return
`false`. -/
theorem claim_C2 (env : CopyEnv) (rsch rtbl : String) (bs : Nat)
    (lim : Option Nat) (hbs : 1 ≤ bs)
    (h1 : env.remoteCols.isEmpty = false)
    (h2 : (reconcileCols env.remoteCols env.localCols).isEmpty = false)
    (h3 : (_get_local_rows env lim).isEmpty = false) :
    ((copy_local_to_remote_via_dblink_values env rsch rtbl bs lim).1 =
        Except.ok true ↔
      ∀ k, k < (chunkList bs (_get_local_rows env lim)).length →
        env.chunkOk k = true) := by
  rw [copy_eq_main env rsch rtbl bs lim h1 h2 h3]
  simp only [mainApply, Except.ok.injEq, beq_iff_eq]
  rw [← totalLen_chunkList bs hbs (_get_local_rows env lim)]
  have h := applyChunks_fst_eq_iff env.chunkOk
    (fun c => insertStmt env.adaptFn rsch rtbl
      (reconcileCols env.remoteCols env.localCols) (typeOf env.remoteCols) c)
    (totalLen (chunkList bs (_get_local_rows env lim))) bs
    (chunkList bs (_get_local_rows env lim))
    (chunkList_ne_nil bs hbs (_get_local_rows env lim)) 0
  simpa using h

/-- Witness for C2 at `envC2` (batch size 2, three rows, all chunks ok). -/
theorem claim_C2_witness :
    (1 : Nat) ≤ 2
  ∧ envC2.remoteCols.isEmpty = false
  ∧ (reconcileCols envC2.remoteCols envC2.localCols).isEmpty = false
  ∧ (_get_local_rows envC2 Option.none).isEmpty = false
  ∧ ((copy_local_to_remote_via_dblink_values envC2 "s" "t" 2 Option.none).1 =
        Except.ok true ↔
      ∀ k, k < (chunkList 2 (_get_local_rows envC2 Option.none)).length →
        envC2.chunkOk k = true) := by
  refine ⟨by decide, rfl, by decide, rfl, ?_⟩
  exact claim_C2 envC2 "s" "t" 2 Option.none (by decide) rfl (by decide) rfl

/-- Claim C3: a chunk whose remote execution fails is rolled back, the
failure is logged and the copy continues with the next chunk; concretely,
with batch size 1 and two source rows where chunk 0 fails and chunk 1
succeeds, the call returns `false`, both chunks are attempted (two
`dblink_exec` events), and exactly one per-chunk rollback and one per-chunk
commit are observed, the rollback for the failed chunk together with its
failure log. -/
theorem claim_C3 (env : CopyEnv) (rsch rtbl : String) (r1 r2 : List PyVal)
    (hrows : env.tableRows = [r1, r2]) (hok0 : env.chunkOk 0 = false)
    (hok1 : env.chunkOk 1 = true) (h1 : env.remoteCols.isEmpty = false)
    (h2 : (reconcileCols env.remoteCols env.localCols).isEmpty = false) :
    (copy_local_to_remote_via_dblink_values env rsch rtbl 1 Option.none).1 =
        Except.ok false
  ∧ ((copy_local_to_remote_via_dblink_values env rsch rtbl 1 Option.none).2.countP
        isChunkRollbackEv) = 1
  ∧ ((copy_local_to_remote_via_dblink_values env rsch rtbl 1 Option.none).2.countP
        isChunkCommitEv) = 1
  ∧ ((copy_local_to_remote_via_dblink_values env rsch rtbl 1 Option.none).2.countP
        isDblinkExecEv) = 2
  ∧ Ev.chunkRollback 0 ∈
      (copy_local_to_remote_via_dblink_values env rsch rtbl 1 Option.none).2
  ∧ Ev.chunkCommit 1 ∈
      (copy_local_to_remote_via_dblink_values env rsch rtbl 1 Option.none).2
  ∧ Ev.logChunkFailed 1 ∈
      (copy_local_to_remote_via_dblink_values env rsch rtbl 1 Option.none).2 := by
  have h3 : (_get_local_rows env Option.none).isEmpty = false := by
    simp [_get_local_rows, hrows]
  have hr : _get_local_rows env Option.none = [r1, r2] := by
    simp [_get_local_rows, hrows]
  have hch : chunkList 1 [r1, r2] = [[r1], [r2]] := by
    rw [chunkList_cons 1 [r1, r2] one_ne_zero (by simp),
      show ([r1, r2] : List (List PyVal)).take 1 = [r1] from rfl,
      show ([r1, r2] : List (List PyVal)).drop 1 = [r2] from rfl,
      chunkList_cons 1 [r2] one_ne_zero (by simp),
      show ([r2] : List (List PyVal)).take 1 = [r2] from rfl,
      show ([r2] : List (List PyVal)).drop 1 = [] from rfl, chunkList_nil]
  rw [copy_eq_main env rsch rtbl 1 Option.none h1 h2 h3]
  simp only [mainApply, hr, hch, applyChunks, hok0, hok1]
  simp [createServerObjectEvs, isChunkRollbackEv, isChunkCommitEv,
    isDblinkExecEv, List.countP_cons, List.countP_append]

/-- Witness for C3 at `envC3` (two rows, chunk 0 fails, chunk 1 succeeds). -/
theorem claim_C3_witness :
    envC3.tableRows = [[PyVal.str "x"], [PyVal.str "y"]]
  ∧ envC3.chunkOk 0 = false
  ∧ envC3.chunkOk 1 = true
  ∧ envC3.remoteCols.isEmpty = false
  ∧ (reconcileCols envC3.remoteCols envC3.localCols).isEmpty = false
  ∧ (copy_local_to_remote_via_dblink_values envC3 "s" "t" 1 Option.none).1 =
      Except.ok false := by
  refine ⟨rfl, rfl, rfl, rfl, by decide, ?_⟩
  exact (claim_C3 envC3 "s" "t" [PyVal.str "x"] [PyVal.str "y"] rfl rfl rfl rfl
    (by decide)).1

end Pgcopy
